import Mathlib

/- Shallow embedding of the Acts AdaptiveMultiVertexFinder driver,
   from Core/include/Acts/Vertexing/AdaptiveMultiVertexFinder.ipp.

   Modelling conventions:
   - machine doubles are modelled as exact rationals;
   - InputTrack_t pointers are modelled as natural-number handles, pointer
     equality becomes equality of handles;
   - the external collaborators (seed finder, multi-vertex fitter, impact
     parameter estimator inside canPrepareVertexForFit) are oracles supplied
     as inputs, indexed by the iteration counter of the driver loop;
   - a comparison significance < threshold, where significance is a real
     square root of a rational, is encoded by the rational test sigLt below,
     which is proved equivalent to the real-number comparison. -/

abbrev Track := Nat

/-- Per-(track, vertex) record held in fitterState.tracksAtVerticesMap. -/
structure TrackAtVertex where
  trackWeight : ℚ
  chi2Track : ℚ
  vertexCompatibility : ℚ

/-- Position and covariance payload of a vertex (fullPosition, fullCovariance). -/
structure PosCov where
  pos : Fin 4 → ℚ
  cov : Fin 4 → Fin 4 → ℚ

/-- A vertex candidate; id models the heap address identity of the C++
    object (distinct live vertices always have distinct ids). -/
structure Vertex where
  id : Nat
  pos : Fin 4 → ℚ
  cov : Fin 4 → Fin 4 → ℚ

/-- Coordinate index of z, as in Acts (0 = x, 1 = y, 2 = z, 3 = t). -/
def eZ : Fin 4 := 2

/-- The finder configuration fields used by the embedded code. -/
structure Config where
  maxIterations : Nat
  addSingleTrackVertices : Bool
  doRealMultiVertex : Bool
  useFastCompatibility : Bool
  useTime : Bool
  do3dSplitting : Bool
  maxVertexChi2 : ℚ
  minWeight : ℚ
  maximumVertexContamination : ℚ
  maxMergeVertexSignificance : ℚ

/-- Per-call options. extractZ models the composition of m_extractParameters
    with position(geoContext)[eZ], i.e. the z coordinate of a track. -/
structure VertexingOptions where
  constraint : PosCov
  useConstraintInFit : Bool
  extractZ : Track → ℚ

inductive VertexingError where
  | EmptyInput
  | SeedingError
  | NumericFailure
  | NotConverged
  deriving DecidableEq

/-- Encodes the IEEE comparison sqrt x < t on exact rationals: for x ≥ 0 it
    agrees with the real comparison (see sigLt_iff_sqrt); for x < 0 sqrt
    returns NaN and every comparison with NaN is false. -/
def sigLt (x t : ℚ) : Bool :=
  if x < 0 then false else decide (0 < t ∧ x < t ^ 2)

theorem sigLt_iff_sqrt (x t : ℚ) (hx : 0 ≤ x) :
    sigLt x t = true ↔ Real.sqrt (x : ℝ) < (t : ℝ) := by
  unfold sigLt
  rw [if_neg (not_lt.2 hx), decide_eq_true_iff]
  by_cases ht : 0 < t
  · have ht' : (0 : ℝ) < (t : ℝ) := by exact_mod_cast ht
    rw [Real.sqrt_lt' ht']
    constructor
    · rintro ⟨-, h⟩
      exact_mod_cast h
    · intro h
      exact ⟨ht, by exact_mod_cast h⟩
  · constructor
    · rintro ⟨h, -⟩
      exact absurd h ht
    · intro h
      have ht' : (t : ℝ) ≤ 0 := by exact_mod_cast not_lt.1 ht
      exact absurd (lt_of_le_of_lt (Real.sqrt_nonneg _) h) (not_lt.2 ht')

theorem sigLt_div_iff_sqrt (d v t : ℚ) (hv : 0 < v) :
    sigLt (d ^ 2 / v) t = true ↔
      |(d : ℝ)| / Real.sqrt (v : ℝ) < (t : ℝ) := by
  have hx : (0 : ℚ) ≤ d ^ 2 / v := div_nonneg (sq_nonneg d) hv.le
  rw [sigLt_iff_sqrt _ _ hx]
  have hcast : ((d ^ 2 / v : ℚ) : ℝ) = (d : ℝ) ^ 2 / (v : ℝ) := by push_cast; ring
  rw [hcast, Real.sqrt_div (sq_nonneg _), Real.sqrt_sq_eq_abs]

/-- Track compatibility predicate shared by checkVertexAndCompatibleTracks and
    removeCompatibleTracksFromSeedTracks (lines 370-374 and 408-412). -/
def isCompatibleTrack (cfg : Config) (ta : TrackAtVertex) : Bool :=
  (decide (ta.vertexCompatibility < cfg.maxVertexChi2) && cfg.useFastCompatibility) ||
  (decide (cfg.minWeight < ta.trackWeight) &&
   decide (ta.chi2Track < cfg.maxVertexChi2) && !cfg.useFastCompatibility)

/-- Loop of checkVertexAndCompatibleTracks (lines 367-394), with the running
    counter nCompatibleTracks as an accumulator; the two early break
    statements are modelled by returning immediately. -/
def checkVertexLoop (cfg : Config) (tav : Track → TrackAtVertex)
    (seedTracks : List Track) (useVertexConstraintInFit : Bool) :
    List Track → Nat → Nat × Bool
  | [], n => (n, false)
  | trk :: rest, n =>
    if isCompatibleTrack cfg (tav trk) then
      if trk ∈ seedTracks then
        if cfg.addSingleTrackVertices && useVertexConstraintInFit then (n + 1, true)
        else if 1 < n + 1 then (n + 1, true)
        else checkVertexLoop cfg tav seedTracks useVertexConstraintInFit rest (n + 1)
      else checkVertexLoop cfg tav seedTracks useVertexConstraintInFit rest n
    else checkVertexLoop cfg tav seedTracks useVertexConstraintInFit rest n

/-- checkVertexAndCompatibleTracks (lines 358-397): walks the trackLinks of
    the candidate and returns (nCompatibleTracks, isGoodVertex). -/
def checkVertexAndCompatibleTracks (cfg : Config) (tav : Track → TrackAtVertex)
    (seedTracks trackLinks : List Track) (useVertexConstraintInFit : Bool) :
    Nat × Bool :=
  checkVertexLoop cfg tav seedTracks useVertexConstraintInFit trackLinks 0

/-- Number of tracks of trackLinks (counted with multiplicity) that satisfy
    the compatibility predicate and are present in seedTracks. Used to state
    properties of checkVertexAndCompatibleTracks. -/
def countCompatible (cfg : Config) (tav : Track → TrackAtVertex)
    (seedTracks trackLinks : List Track) : Nat :=
  (trackLinks.filter fun trk =>
    isCompatibleTrack cfg (tav trk) && decide (trk ∈ seedTracks)).length

/-- removeCompatibleTracksFromSeedTracks (lines 399-423): erases every
    compatible linked track from seedTracks (first occurrence, as the
    find_if + erase of the source) and appends it to removedSeedTracks. -/
def removeCompatibleTracksFromSeedTracks (cfg : Config)
    (tav : Track → TrackAtVertex) :
    List Track → List Track → List Track → List Track × List Track
  | [], seedTracks, removedSeedTracks => (seedTracks, removedSeedTracks)
  | trk :: rest, seedTracks, removedSeedTracks =>
    if isCompatibleTrack cfg (tav trk) then
      if trk ∈ seedTracks then
        removeCompatibleTracksFromSeedTracks cfg tav rest
          (seedTracks.erase trk) (removedSeedTracks ++ [trk])
      else removeCompatibleTracksFromSeedTracks cfg tav rest seedTracks removedSeedTracks
    else removeCompatibleTracksFromSeedTracks cfg tav rest seedTracks removedSeedTracks

/-- First phase of removeTrackIfIncompatible (lines 433-452): running maximum
    of vertexCompatibility over the linked tracks, recording the track only
    when it is found in seedTracks. The accumulator is (maxCompatibility,
    removedTrack), starting at (0, none). -/
def removeIncompLoop (tav : Track → TrackAtVertex) (seedTracks : List Track) :
    List Track → ℚ → Option Track → ℚ × Option Track
  | [], m, best => (m, best)
  | trk :: rest, m, best =>
    if m < (tav trk).vertexCompatibility ∧ trk ∈ seedTracks then
      removeIncompLoop tav seedTracks rest (tav trk).vertexCompatibility (some trk)
    else removeIncompLoop tav seedTracks rest m best

/-- Second phase of removeTrackIfIncompatible (lines 461-471): index, track
    and distance of the seed track nearest in z to the candidate. The initial
    accumulator none models smallestDeltaZ = numeric_limits max together with
    the end iterator. -/
def nearestTrackLoop (dist : Track → ℚ) :
    List Track → Nat → Option (ℚ × Nat × Track) → Option (ℚ × Nat × Track)
  | [], _, best => best
  | trk :: rest, i, best =>
    match best with
    | none => nearestTrackLoop dist rest (i + 1) (some (dist trk, i, trk))
    | some b =>
      if dist trk < b.1 then nearestTrackLoop dist rest (i + 1) (some (dist trk, i, trk))
      else nearestTrackLoop dist rest (i + 1) (some b)

/-- removeTrackIfIncompatible (lines 425-481). Returns none when no track
    could be removed (the C++ function returns false), otherwise the updated
    (seedTracks, removedSeedTracks). The first phase erases the selected
    track by its first occurrence (find_if iterator), the fallback erases by
    index (seedTracks.begin() + i). -/
def removeTrackIfIncompatible (tav : Track → TrackAtVertex)
    (trackLinks seedTracks removedSeedTracks : List Track)
    (extractZ : Track → ℚ) (vtxZ : ℚ) : Option (List Track × List Track) :=
  match (removeIncompLoop tav seedTracks trackLinks 0 none).2 with
  | some trk => some (seedTracks.erase trk, removedSeedTracks ++ [trk])
  | none =>
    match nearestTrackLoop (fun trk => |extractZ trk - vtxZ|) seedTracks 0 none with
    | some b => some (seedTracks.eraseIdx b.2.1, removedSeedTracks ++ [b.2.2])
    | none => none

/-- Top-left 3x3 corner of a 4x4 matrix (topLeftCorner in the source). -/
def corner3 (m : Matrix (Fin 4) (Fin 4) ℚ) : Matrix (Fin 3) (Fin 3) ℚ :=
  Matrix.of fun i j => m i.castSucc j.castSucc

/-- safeInverse of AlgebraHelpers.hpp in exact arithmetic: the inverse exists
    iff the determinant is non-zero (Eigen produces non-finite entries exactly
    on singular input). -/
def safeInverse {n : ℕ} (m : Matrix (Fin n) (Fin n) ℚ) :
    Option (Matrix (Fin n) (Fin n) ℚ) :=
  if m.det = 0 then none else some (m.det⁻¹ • m.adjugate)

/-- Body of the loop of isMergedVertex (lines 526-562) for one other vertex:
    the significance of the pair and its comparison with
    maxMergeVertexSignificance, including the silent skips on a non-positive
    z-variance sum or a non-invertible covariance sum. -/
def pairMerged (cfg : Config) (vtx otherVtx : Vertex) : Bool :=
  if !cfg.do3dSplitting then
    let deltaZPos := otherVtx.pos eZ - vtx.pos eZ
    let sumVarZ := otherVtx.cov eZ eZ + vtx.cov eZ eZ
    if sumVarZ ≤ 0 then false
    else sigLt (deltaZPos ^ 2 / sumVarZ) cfg.maxMergeVertexSignificance
  else if cfg.useTime then
    let sumCov : Matrix (Fin 4) (Fin 4) ℚ :=
      Matrix.of fun i j => vtx.cov i j + otherVtx.cov i j
    match safeInverse sumCov with
    | none => false
    | some sumCovInverse =>
      let deltaPos : Fin 4 → ℚ := fun i => otherVtx.pos i - vtx.pos i
      sigLt (Matrix.dotProduct deltaPos (Matrix.mulVec sumCovInverse deltaPos))
        cfg.maxMergeVertexSignificance
  else
    let sumCov : Matrix (Fin 3) (Fin 3) ℚ :=
      corner3 (Matrix.of fun i j => vtx.cov i j + otherVtx.cov i j)
    match safeInverse sumCov with
    | none => false
    | some sumCovInverse =>
      let deltaPos : Fin 3 → ℚ := fun i => otherVtx.pos i.castSucc - vtx.pos i.castSucc
      sigLt (Matrix.dotProduct deltaPos (Matrix.mulVec sumCovInverse deltaPos))
        cfg.maxMergeVertexSignificance

/-- isMergedVertex (lines 512-565): the pointer-identity test of the source
    becomes an id comparison. -/
def isMergedVertex (cfg : Config) (vtx : Vertex) (allVertices : List Vertex) : Bool :=
  allVertices.any fun otherVtx =>
    if vtx.id = otherVtx.id then false else pairMerged cfg vtx otherVtx

/-- The single loop of keepNewVertex (lines 491-497) accumulating
    (contaminationNum, contaminationDeNom). -/
def contaminationSums (tav : Track → TrackAtVertex) (trackLinks : List Track) : ℚ × ℚ :=
  trackLinks.foldl
    (fun acc trk =>
      let w := (tav trk).trackWeight
      (acc.1 + w * (1 - w), acc.2 + w * w))
    (0, 0)

/-- Contamination of a candidate (lines 488-500): num / denom, staying 0 when
    the denominator is 0. -/
def contamination (tav : Track → TrackAtVertex) (trackLinks : List Track) : ℚ :=
  let s := contaminationSums tav trackLinks
  if s.2 ≠ 0 then s.1 / s.2 else 0

/-- keepNewVertex (lines 483-510). -/
def keepNewVertex (cfg : Config) (tav : Track → TrackAtVertex)
    (trackLinks : List Track) (vtx : Vertex) (allVertices : List Vertex) : Bool :=
  if contamination tav trackLinks > cfg.maximumVertexContamination then false
  else if isMergedVertex cfg vtx allVertices then false
  else true

/-- Output of the impact parameter estimator (external collaborator). The
    optional time members are modelled as plain rationals; the estimator
    provides them whenever useTime is set. -/
structure ImpactParametersAndSigma where
  d0 : ℚ
  z0 : ℚ
  sigmaD0 : ℚ
  sigmaZ0 : ℚ
  deltaT : ℚ
  sigmaDeltaT : ℚ

/-- chi2Time of getIPSignificance (lines 219-224). -/
def chi2TimeOf (cfg : Config) (ipas : ImpactParametersAndSigma) : ℚ :=
  if cfg.useTime then
    if 0 < ipas.sigmaDeltaT then (ipas.deltaT / ipas.sigmaDeltaT) ^ 2 else 0
  else 0

/-- Squared significance of getIPSignificance (lines 226-230): the source
    returns the real square root of this value, and returns 0 (the square
    root of 0) when sigmaD0 or sigmaZ0 is not positive. -/
def getIPSignificanceSq (cfg : Config) (ipas : ImpactParametersAndSigma) : ℚ :=
  if 0 < ipas.sigmaD0 ∧ 0 < ipas.sigmaZ0 then
    (ipas.d0 / ipas.sigmaD0) ^ 2 + (ipas.z0 / ipas.sigmaZ0) ^ 2 + chi2TimeOf cfg ipas
  else 0

/-- An accepted vertex candidate together with the driver-visible part of the
    fitter state attached to it: I(V).trackLinks and the tracksAtVerticesMap
    entries (trk, V) → TrackAtVertex for its linked tracks. -/
structure AcceptedVtx where
  vtx : Vertex
  trackLinks : List Track
  tav : Track → TrackAtVertex

/-- Outcome of the external multi-vertex fitter addVtxToFit for one
    iteration: the refitted candidate position and covariance, the refitted
    per-track data of the candidate, and the in-place update the joint refit
    applies to the previously accepted vertices. -/
structure FitData where
  tav : Track → TrackAtVertex
  cand : PosCov
  updAcc : AcceptedVtx → AcceptedVtx

/-- The external collaborators of the driver loop, indexed by the iteration
    counter so that two runs with identical collaborator outputs share one
    value of this structure. seed models doSeeding applied to the current
    seedTracks and removedSeedTracks; prep models canPrepareVertexForFit
    applied to the search tracks (ok none = could not prepare, discard);
    fit models addVtxToFit; refit models the refit performed by
    deleteLastVertex after a candidate is rejected. -/
structure Collaborators where
  seed : Nat → List Track → List Track → Except VertexingError PosCov
  prep : Nat → List Track → Except VertexingError (Option (List Track))
  fit : Nat → Except VertexingError FitData
  refit : Nat → Except VertexingError (AcceptedVtx → AcceptedVtx)

/-- Applies an in-place fitter update to the accepted vertices. The fitter
    mutates positions, covariances and track records but never the identity
    of a vertex object nor its trackLinks, so those are preserved. -/
def applyFitUpd (u : AcceptedVtx → AcceptedVtx) (l : List AcceptedVtx) :
    List AcceptedVtx :=
  l.map fun a =>
    let b := u a
    ⟨⟨a.vtx.id, b.vtx.pos, b.vtx.cov⟩, a.trackLinks, b.tav⟩

/-- Mutable state of the driver while loop (lines 34-38): seedTracks,
    removedSeedTracks, the accepted vertices (allVertices together with the
    fitter state attached to them), and the counter supplying fresh vertex
    identities (heap addresses). -/
structure LoopState where
  seedTracks : List Track
  removedSeedTracks : List Track
  accepted : List AcceptedVtx
  nextId : Nat

/-- Result of one body execution of the while loop: a propagated collaborator
    error, a break (carrying the vertices the finder then returns), or the
    state for the next iteration. -/
inductive StepResult where
  | err (e : VertexingError)
  | brk (out : List AcceptedVtx)
  | next (st : LoopState)

/-- Tail of one loop iteration from line 100 on: seed-set update followed by
    the keep decision, for an already fitted candidate. seedTracks2 and
    removed2 are the seed sets after removeCompatibleTracksFromSeedTracks or
    removeTrackIfIncompatible. -/
def finishIteration (cfg : Config) (opts : VertexingOptions) (collab : Collaborators)
    (iter : Nat) (st : LoopState) (acc2 : List AcceptedVtx) (cand2 : Vertex)
    (fd : FitData) (trackLinks : List Track) (isGoodVertex : Bool)
    (seedTracks2 removed2 : List Track) : StepResult :=
  let keepVertex := isGoodVertex &&
    keepNewVertex cfg fd.tav trackLinks cand2 (acc2.map (fun a => a.vtx) ++ [cand2])
  if keepVertex then
    .next ⟨seedTracks2, removed2, acc2 ++ [⟨cand2, trackLinks, fd.tav⟩], st.nextId + 1⟩
  else
    match collab.refit iter with
    | .error e => .err e
    | .ok upd => .next ⟨seedTracks2, removed2, applyFitUpd upd acc2, st.nextId + 1⟩

/-- One body execution of the while loop of find (lines 39-135). -/
def findIteration (cfg : Config) (opts : VertexingOptions) (collab : Collaborators)
    (allTracks : List Track) (iter : Nat) (st : LoopState) : StepResult :=
  let searchTracks := if cfg.doRealMultiVertex then allTracks else st.seedTracks
  match collab.seed iter st.seedTracks st.removedSeedTracks with
  | .error e => .err e
  | .ok sd =>
    let vtxCandidate : Vertex := ⟨st.nextId, sd.pos, sd.cov⟩
    if vtxCandidate.pos eZ = opts.constraint.pos eZ then
      .brk st.accepted
    else
      match collab.prep iter searchTracks with
      | .error e => .err e
      | .ok none => .brk st.accepted
      | .ok (some trackLinks) =>
        match collab.fit iter with
        | .error e => .err e
        | .ok fd =>
          let cand2 : Vertex := ⟨st.nextId, fd.cand.pos, fd.cand.cov⟩
          let acc2 := applyFitUpd fd.updAcc st.accepted
          let res := checkVertexAndCompatibleTracks cfg fd.tav st.seedTracks
            trackLinks opts.useConstraintInFit
          if 0 < res.1 then
            let pr := removeCompatibleTracksFromSeedTracks cfg fd.tav
              trackLinks st.seedTracks []
            finishIteration cfg opts collab iter st acc2 cand2 fd trackLinks
              res.2 pr.1 pr.2
          else
            match removeTrackIfIncompatible fd.tav trackLinks st.seedTracks []
              opts.extractZ (cand2.pos eZ) with
            | none => .brk acc2
            | some pr =>
              finishIteration cfg opts collab iter st acc2 cand2 fd trackLinks
                res.2 pr.1 pr.2

/-- The while loop of find (lines 36-136). The fuel argument counts the
    remaining iterations, so that the loop entered with fuel
    cfg.maxIterations and iter 0 checks iteration < maxIterations exactly as
    the source. -/
def findLoop (cfg : Config) (opts : VertexingOptions) (collab : Collaborators)
    (allTracks : List Track) : Nat → Nat → LoopState →
    Except VertexingError (List AcceptedVtx)
  | 0, _, st => .ok st.accepted
  | fuel + 1, iter, st =>
    if (cfg.addSingleTrackVertices && !st.seedTracks.isEmpty) ||
       (!cfg.addSingleTrackVertices && !st.seedTracks.isEmpty) then
      match findIteration cfg opts collab allTracks iter st with
      | .err e => .error e
      | .brk out => .ok out
      | .next st2 => findLoop cfg opts collab allTracks fuel (iter + 1) st2
    else .ok st.accepted

/-- Output vertex of the finder: a value copy of the vertex with its
    TrackAtVertex list attached (setTracksAtVertex). -/
structure OutVtx where
  vtx : Vertex
  tracksAtVertex : List TrackAtVertex

/-- getVertexOutputList (lines 611-628): for each surviving vertex,
    materialize its TrackAtVertex list by joining trackLinks with
    tracksAtVerticesMap and emit a value copy in acceptance order. -/
def getVertexOutputList (accepted : List AcceptedVtx) : List OutVtx :=
  accepted.map fun a => ⟨a.vtx, a.trackLinks.map a.tav⟩

/-- find (lines 12-139). -/
def find (cfg : Config) (opts : VertexingOptions) (collab : Collaborators)
    (allTracks : List Track) : Except VertexingError (List OutVtx) :=
  if allTracks.isEmpty then .error .EmptyInput
  else
    (findLoop cfg opts collab allTracks cfg.maxIterations 0
      ⟨allTracks, [], [], 0⟩).map getVertexOutputList

/-- Number of non-breaking iterations the while loop completes from a given
    state: the instrumentation counterpart of findLoop, counting exactly the
    executions of the loop body that reach line 135 (iteration++). -/
def loopIters (cfg : Config) (opts : VertexingOptions) (collab : Collaborators)
    (allTracks : List Track) : Nat → Nat → LoopState → Nat
  | 0, _, _ => 0
  | fuel + 1, iter, st =>
    if (cfg.addSingleTrackVertices && !st.seedTracks.isEmpty) ||
       (!cfg.addSingleTrackVertices && !st.seedTracks.isEmpty) then
      match findIteration cfg opts collab allTracks iter st with
      | .err _ => 0
      | .brk _ => 0
      | .next st2 => loopIters cfg opts collab allTracks fuel (iter + 1) st2 + 1
    else 0

/-- Number of vertices a finder result hands to the caller: the length of
    the output list on success, nothing on error. -/
def numReturned (r : Except VertexingError (List OutVtx)) : Nat :=
  match r with
  | .ok vs => vs.length
  | .error _ => 0

theorem countCompatible_cons (cfg : Config) (tav : Track → TrackAtVertex)
    (seed : List Track) (trk : Track) (rest : List Track) :
    countCompatible cfg tav seed (trk :: rest) =
      (if isCompatibleTrack cfg (tav trk) = true then
        if trk ∈ seed then 1 else 0
       else 0) + countCompatible cfg tav seed rest := by
  by_cases hc : isCompatibleTrack cfg (tav trk) = true
  · by_cases hm : trk ∈ seed
    · simp [countCompatible, List.filter_cons, hc, hm, Nat.add_comm]
    · simp [countCompatible, List.filter_cons, hc, hm]
  · simp [countCompatible, List.filter_cons, hc]

theorem checkVertexLoop_fst (cfg : Config) (tav : Track → TrackAtVertex)
    (seed : List Track) (useC : Bool) (links : List Track) :
    ∀ n : Nat, n ≤ 1 →
    (checkVertexLoop cfg tav seed useC links n).1 =
      if (cfg.addSingleTrackVertices && useC) = true then
        n + min (countCompatible cfg tav seed links) 1
      else min (n + countCompatible cfg tav seed links) 2 := by
  induction links with
  | nil =>
    intro n hn
    simp only [checkVertexLoop, countCompatible, List.filter_nil, List.length_nil]
    split <;> omega
  | cons trk rest ih =>
    intro n hn
    rw [countCompatible_cons]
    by_cases hc : isCompatibleTrack cfg (tav trk) = true
    · by_cases hm : trk ∈ seed
      · by_cases hb : (cfg.addSingleTrackVertices && useC) = true
        · simp [checkVertexLoop, hc, hm, hb] <;> omega
        · by_cases h1 : 1 < n + 1
          · simp [checkVertexLoop, hc, hm, hb, h1] <;> omega
          · have hrec := ih (n + 1) (by omega)
            simp [checkVertexLoop, hc, hm, hb, h1, hrec] <;> omega
      · have hrec := ih n hn
        simp [checkVertexLoop, hc, hm, hrec] <;> omega
    · have hrec := ih n hn
      simp [checkVertexLoop, hc, hrec] <;> omega

theorem checkVertexLoop_snd (cfg : Config) (tav : Track → TrackAtVertex)
    (seed : List Track) (useC : Bool) (links : List Track) :
    ∀ n : Nat, n ≤ 1 →
    ((checkVertexLoop cfg tav seed useC links n).2 = true ↔
      ((cfg.addSingleTrackVertices && useC) = true ∧
        1 ≤ countCompatible cfg tav seed links) ∨
      2 ≤ n + countCompatible cfg tav seed links) := by
  induction links with
  | nil =>
    intro n hn
    simp only [checkVertexLoop, countCompatible, List.filter_nil, List.length_nil]
    constructor
    · intro h
      exact absurd h (by simp)
    · rintro (⟨-, h⟩ | h) <;> omega
  | cons trk rest ih =>
    intro n hn
    rw [countCompatible_cons]
    by_cases hc : isCompatibleTrack cfg (tav trk) = true
    · by_cases hm : trk ∈ seed
      · by_cases hb : (cfg.addSingleTrackVertices && useC) = true
        · simp [checkVertexLoop, hc, hm, hb] <;> omega
        · by_cases h1 : 1 < n + 1
          · simp [checkVertexLoop, hc, hm, hb, h1] <;> omega
          · have hrec := ih (n + 1) (by omega)
            simp [checkVertexLoop, hc, hm, hb, h1, hrec] <;> omega
      · have hrec := ih n hn
        simp [checkVertexLoop, hc, hm, hrec] <;> omega
    · have hrec := ih n hn
      simp [checkVertexLoop, hc, hrec] <;> omega

/-- Claim C1: checkVertexAndCompatibleTracks reports isGoodVertex = true iff
    either addSingleTrackVertices and useConstraintInFit hold and at least one
    linked track classified compatible is present in seedTracks, or at least
    two linked tracks classified compatible are present in seedTracks. -/
theorem C1_isGoodVertex_iff (cfg : Config) (tav : Track → TrackAtVertex)
    (seedTracks trackLinks : List Track) (useConstraintInFit : Bool) :
    (checkVertexAndCompatibleTracks cfg tav seedTracks trackLinks
        useConstraintInFit).2 = true ↔
      ((cfg.addSingleTrackVertices = true ∧ useConstraintInFit = true ∧
        1 ≤ countCompatible cfg tav seedTracks trackLinks) ∨
       2 ≤ countCompatible cfg tav seedTracks trackLinks) := by
  rw [checkVertexAndCompatibleTracks,
    checkVertexLoop_snd cfg tav seedTracks useConstraintInFit trackLinks 0 (by omega)]
  rw [Bool.and_eq_true]
  constructor
  · rintro (⟨⟨ha, hu⟩, h⟩ | h)
    · exact Or.inl ⟨ha, hu, h⟩
    · exact Or.inr (by omega)
  · rintro (⟨ha, hu, h⟩ | h)
    · exact Or.inl ⟨⟨ha, hu⟩, h⟩
    · exact Or.inr (by omega)

def cfgCx : Config :=
  ⟨10, false, false, true, false, false, 10, 0, 1, 3⟩

def tavCx : Track → TrackAtVertex := fun _ => ⟨1, 0, 0⟩

/-- Claim C4, counterexample: with three linked tracks all compatible and all
    present in seedTracks, the returned nCompatibleTracks is 2 (the loop
    breaks as soon as the counter exceeds 1), not the full count 3. -/
theorem C4_count_counterexample :
    (checkVertexAndCompatibleTracks cfgCx tavCx [0, 1, 2] [0, 1, 2] false).1 = 2 ∧
    countCompatible cfgCx tavCx [0, 1, 2] [0, 1, 2] = 3 ∧
    (checkVertexAndCompatibleTracks cfgCx tavCx [0, 1, 2] [0, 1, 2] false).1 ≠
      countCompatible cfgCx tavCx [0, 1, 2] [0, 1, 2] := by
  decide

/-- Claim C4, amended: nCompatibleTracks equals the number of linked tracks
    that satisfy the compatibility predicate and are present in seedTracks,
    capped by the early break of the counting loop: capped at 1 when
    addSingleTrackVertices and useConstraintInFit both hold, at 2 otherwise. -/
theorem C4_nCompatibleTracks_capped (cfg : Config) (tav : Track → TrackAtVertex)
    (seedTracks trackLinks : List Track) (useConstraintInFit : Bool) :
    (checkVertexAndCompatibleTracks cfg tav seedTracks trackLinks
        useConstraintInFit).1 =
      if (cfg.addSingleTrackVertices && useConstraintInFit) = true then
        min (countCompatible cfg tav seedTracks trackLinks) 1
      else min (countCompatible cfg tav seedTracks trackLinks) 2 := by
  rw [checkVertexAndCompatibleTracks,
    checkVertexLoop_fst cfg tav seedTracks useConstraintInFit trackLinks 0 (by omega)]
  split <;> omega

theorem contaminationSums_spec (tav : Track → TrackAtVertex) (links : List Track) :
    ∀ a b : ℚ,
    links.foldl
      (fun acc trk =>
        let w := (tav trk).trackWeight
        (acc.1 + w * (1 - w), acc.2 + w * w)) (a, b) =
      (a + (links.map fun trk =>
        (tav trk).trackWeight * (1 - (tav trk).trackWeight)).sum,
       b + (links.map fun trk =>
        (tav trk).trackWeight * (tav trk).trackWeight).sum) := by
  induction links with
  | nil =>
    intro a b
    simp
  | cons trk rest ih =>
    intro a b
    simp only [List.foldl_cons, List.map_cons, List.sum_cons, ih]
    congr 1 <;> ring

/-- Claim C2: the contamination of a candidate is the ratio of the sum of
    w(1-w) over its linked tracks to the sum of w squared, taken as 0 when
    the denominator vanishes, and keepNewVertex rejects the candidate
    whenever the contamination exceeds maximumVertexContamination. -/
theorem C2_contamination_reject (cfg : Config) (tav : Track → TrackAtVertex)
    (trackLinks : List Track) (vtx : Vertex) (allVertices : List Vertex) :
    (contamination tav trackLinks =
      if (trackLinks.map fun trk =>
            (tav trk).trackWeight * (tav trk).trackWeight).sum = 0 then 0
      else (trackLinks.map fun trk =>
            (tav trk).trackWeight * (1 - (tav trk).trackWeight)).sum /
           (trackLinks.map fun trk =>
            (tav trk).trackWeight * (tav trk).trackWeight).sum) ∧
    (cfg.maximumVertexContamination < contamination tav trackLinks →
      keepNewVertex cfg tav trackLinks vtx allVertices = false) := by
  have hsum : contaminationSums tav trackLinks =
      ((trackLinks.map fun trk =>
        (tav trk).trackWeight * (1 - (tav trk).trackWeight)).sum,
       (trackLinks.map fun trk =>
        (tav trk).trackWeight * (tav trk).trackWeight).sum) := by
    unfold contaminationSums
    rw [contaminationSums_spec tav trackLinks 0 0]
    simp
  constructor
  · unfold contamination
    rw [hsum]
    by_cases hz : (trackLinks.map fun trk =>
        (tav trk).trackWeight * (tav trk).trackWeight).sum = 0
    · simp [hz]
    · simp [hz]
  · intro h
    unfold keepNewVertex
    rw [if_pos h]

def cfgW2 : Config :=
  ⟨10, false, false, true, false, false, 10, 0, 0, 3⟩

def tavW2 : Track → TrackAtVertex := fun _ => ⟨1 / 2, 0, 0⟩

def vtxW2 : Vertex := ⟨0, fun _ => 0, fun _ _ => 0⟩

/-- Claim C2, witness: a single linked track of weight 1/2 gives
    contamination 1 exceeding a maximumVertexContamination of 0, so the
    candidate is rejected. -/
theorem C2_contamination_reject_witness :
    keepNewVertex cfgW2 tavW2 [0] vtxW2 [] = false :=
  (C2_contamination_reject cfgW2 tavW2 [0] vtxW2 []).2
    (by norm_num [contamination, contaminationSums, cfgW2, tavW2])

/-- Claim C5: the IP significance is the square root of
    (d0/sigmaD0)^2 + (z0/sigmaZ0)^2 + chi2Time, where chi2Time is
    (deltaT/sigmaDeltaT)^2 when useTime is enabled and sigmaDeltaT is
    positive and 0 otherwise; and it is 0 whenever sigmaD0 or sigmaZ0 is
    not positive. -/
theorem C5_getIPSignificance_spec (cfg : Config) (ipas : ImpactParametersAndSigma) :
    ((ipas.sigmaD0 ≤ 0 ∨ ipas.sigmaZ0 ≤ 0) →
      Real.sqrt (getIPSignificanceSq cfg ipas) = 0) ∧
    (0 < ipas.sigmaD0 → 0 < ipas.sigmaZ0 →
      Real.sqrt (getIPSignificanceSq cfg ipas) =
        Real.sqrt (((ipas.d0 : ℝ) / (ipas.sigmaD0 : ℝ)) ^ 2 +
          ((ipas.z0 : ℝ) / (ipas.sigmaZ0 : ℝ)) ^ 2 +
          (if cfg.useTime = true ∧ 0 < ipas.sigmaDeltaT then
            ((ipas.deltaT : ℝ) / (ipas.sigmaDeltaT : ℝ)) ^ 2 else 0))) := by
  constructor
  · intro h
    have hz : getIPSignificanceSq cfg ipas = 0 := by
      unfold getIPSignificanceSq
      rw [if_neg]
      rintro ⟨h1, h2⟩
      rcases h with h | h
      · exact absurd h1 (not_lt.2 h)
      · exact absurd h2 (not_lt.2 h)
    rw [hz]
    simp
  · intro h1 h2
    unfold getIPSignificanceSq chi2TimeOf
    rw [if_pos ⟨h1, h2⟩]
    congr 1
    by_cases ht : cfg.useTime = true
    · by_cases hs : 0 < ipas.sigmaDeltaT
      · rw [if_pos ht, if_pos hs, if_pos ⟨ht, hs⟩]
        push_cast
        ring
      · rw [if_pos ht, if_neg hs, if_neg (fun hh => hs hh.2)]
        push_cast
        ring
    · rw [if_neg (fun hh => ht hh)]
      rw [if_neg (fun hh => ht hh.1)]
      push_cast
      ring

def ipasW : ImpactParametersAndSigma := ⟨1, 1, -1, 1, 0, 0⟩

/-- Claim C5, witness: with sigmaD0 = -1 the significance is 0. -/
theorem C5_getIPSignificance_witness :
    Real.sqrt (getIPSignificanceSq cfgW2 ipasW) = 0 :=
  (C5_getIPSignificance_spec cfgW2 ipasW).1 (Or.inl (by decide))

theorem pairMerged_1d (cfg : Config) (vtx otherVtx : Vertex)
    (h3 : cfg.do3dSplitting = false) :
    pairMerged cfg vtx otherVtx = true ↔
      0 < otherVtx.cov eZ eZ + vtx.cov eZ eZ ∧
      |((otherVtx.pos eZ - vtx.pos eZ : ℚ) : ℝ)| /
        Real.sqrt ((otherVtx.cov eZ eZ + vtx.cov eZ eZ : ℚ) : ℝ) <
        (cfg.maxMergeVertexSignificance : ℝ) := by
  unfold pairMerged
  rw [h3]
  simp only [Bool.not_false, if_true]
  by_cases hv : otherVtx.cov eZ eZ + vtx.cov eZ eZ ≤ 0
  · rw [if_pos hv]
    constructor
    · intro h
      exact absurd h (by simp)
    · rintro ⟨h0, -⟩
      exact absurd h0 (not_lt.2 hv)
  · rw [if_neg hv]
    have hv2 : 0 < otherVtx.cov eZ eZ + vtx.cov eZ eZ := not_le.1 hv
    rw [sigLt_div_iff_sqrt _ _ _ hv2]
    constructor
    · intro h
      exact ⟨hv2, h⟩
    · rintro ⟨-, h⟩
      exact h

/-- Claim C3: with do3dSplitting disabled, isMergedVertex holds iff some
    vertex of the list distinct from the candidate has significance
    abs(deltaZ) / sqrt(sumVarZ) below maxMergeVertexSignificance, a pair with
    non-positive z-variance sum being silently skipped; and in the 3D and 4D
    modes a pair whose covariance sum is singular is silently skipped as
    well (pairMerged is false, no error is raised). -/
theorem C3_isMergedVertex_spec (cfg : Config) (vtx : Vertex)
    (allVertices : List Vertex) :
    (cfg.do3dSplitting = false →
      (isMergedVertex cfg vtx allVertices = true ↔
        ∃ otherVtx ∈ allVertices, otherVtx.id ≠ vtx.id ∧
          0 < otherVtx.cov eZ eZ + vtx.cov eZ eZ ∧
          |((otherVtx.pos eZ - vtx.pos eZ : ℚ) : ℝ)| /
            Real.sqrt ((otherVtx.cov eZ eZ + vtx.cov eZ eZ : ℚ) : ℝ) <
            (cfg.maxMergeVertexSignificance : ℝ))) ∧
    (∀ otherVtx : Vertex, cfg.do3dSplitting = true → cfg.useTime = true →
      (Matrix.of fun i j => vtx.cov i j + otherVtx.cov i j :
        Matrix (Fin 4) (Fin 4) ℚ).det = 0 →
      pairMerged cfg vtx otherVtx = false) ∧
    (∀ otherVtx : Vertex, cfg.do3dSplitting = true → cfg.useTime = false →
      (corner3 (Matrix.of fun i j => vtx.cov i j + otherVtx.cov i j)).det = 0 →
      pairMerged cfg vtx otherVtx = false) := by
  refine ⟨?_, ?_, ?_⟩
  · intro h3
    unfold isMergedVertex
    rw [List.any_eq_true]
    constructor
    · rintro ⟨v2, hmem, hb⟩
      by_cases hid : vtx.id = v2.id
      · rw [if_pos hid] at hb
        exact absurd hb (by simp)
      · rw [if_neg hid] at hb
        exact ⟨v2, hmem, fun h => hid h.symm, (pairMerged_1d cfg vtx v2 h3).1 hb⟩
    · rintro ⟨v2, hmem, hid, hpos, hsig⟩
      refine ⟨v2, hmem, ?_⟩
      rw [if_neg (fun h => hid h.symm)]
      exact (pairMerged_1d cfg vtx v2 h3).2 ⟨hpos, hsig⟩
  · intro v2 h3 ht hdet
    simp [pairMerged, h3, ht, safeInverse, hdet]
  · intro v2 h3 ht hdet
    simp [pairMerged, h3, ht, safeInverse, hdet]

def cfgC3 : Config :=
  ⟨10, false, false, true, false, false, 10, 0, 1, 10⟩

def vtxC3 : Vertex := ⟨0, fun _ => 0, fun _ _ => 1⟩

def vC3 : Vertex := ⟨1, fun _ => 1, fun _ _ => 1⟩

/-- Claim C3, witness: two unit-covariance vertices one millimeter apart in z
    are flagged as merged against a threshold of 10, and the theorem converts
    the boolean result into the real significance inequality. -/
theorem C3_isMergedVertex_witness :
    ∃ otherVtx ∈ [vC3], otherVtx.id ≠ vtxC3.id ∧
      0 < otherVtx.cov eZ eZ + vtxC3.cov eZ eZ ∧
      |((otherVtx.pos eZ - vtxC3.pos eZ : ℚ) : ℝ)| /
        Real.sqrt ((otherVtx.cov eZ eZ + vtxC3.cov eZ eZ : ℚ) : ℝ) <
        (cfgC3.maxMergeVertexSignificance : ℝ) :=
  ((C3_isMergedVertex_spec cfgC3 vtxC3 [vC3]).1 rfl).mp
    (by norm_num [isMergedVertex, pairMerged, sigLt, cfgC3, vtxC3, vC3])

theorem removeIncompLoop_fst_mono (tav : Track → TrackAtVertex) (seed : List Track) :
    ∀ (links : List Track) (m : ℚ) (best : Option Track),
    m ≤ (removeIncompLoop tav seed links m best).1 := by
  intro links
  induction links with
  | nil =>
    intro m best
    simp [removeIncompLoop]
  | cons trk rest ih =>
    intro m best
    by_cases h : m < (tav trk).vertexCompatibility ∧ trk ∈ seed
    · simp only [removeIncompLoop, if_pos h]
      exact le_trans h.1.le (ih _ _)
    · simp only [removeIncompLoop, if_neg h]
      exact ih m best

theorem removeIncompLoop_fst_bound (tav : Track → TrackAtVertex) (seed : List Track) :
    ∀ (links : List Track) (m : ℚ) (best : Option Track) (t : Track),
    t ∈ links → t ∈ seed →
    (tav t).vertexCompatibility ≤ (removeIncompLoop tav seed links m best).1 := by
  intro links
  induction links with
  | nil =>
    intro m best t ht
    exact absurd ht (by simp)
  | cons trk rest ih =>
    intro m best t ht hts
    by_cases h : m < (tav trk).vertexCompatibility ∧ trk ∈ seed
    · simp only [removeIncompLoop, if_pos h]
      rcases List.mem_cons.1 ht with rfl | hrest
      · exact removeIncompLoop_fst_mono tav seed rest _ _
      · exact ih _ _ t hrest hts
    · simp only [removeIncompLoop, if_neg h]
      rcases List.mem_cons.1 ht with rfl | hrest
      · have : ¬ m < (tav t).vertexCompatibility := fun hlt => h ⟨hlt, hts⟩
        exact le_trans (not_lt.1 this) (removeIncompLoop_fst_mono tav seed rest _ _)
      · exact ih _ _ t hrest hts

theorem removeIncompLoop_some (tav : Track → TrackAtVertex) (seed : List Track) :
    ∀ (links : List Track) (m : ℚ) (best : Option Track),
    0 ≤ m →
    (∀ t0, best = some t0 →
      t0 ∈ seed ∧ (tav t0).vertexCompatibility = m ∧ 0 < m) →
    ∀ t, (removeIncompLoop tav seed links m best).2 = some t →
      t ∈ seed ∧
      (tav t).vertexCompatibility = (removeIncompLoop tav seed links m best).1 ∧
      0 < (removeIncompLoop tav seed links m best).1 := by
  intro links
  induction links with
  | nil =>
    intro m best hm hbest t hres
    simp only [removeIncompLoop] at hres ⊢
    exact hbest t hres
  | cons trk rest ih =>
    intro m best hm hbest t hres
    by_cases h : m < (tav trk).vertexCompatibility ∧ trk ∈ seed
    · simp only [removeIncompLoop, if_pos h] at hres ⊢
      refine ih _ _ (le_of_lt (lt_of_le_of_lt hm h.1)) ?_ t hres
      rintro t0 ht0
      injection ht0 with ht0
      subst ht0
      exact ⟨h.2, rfl, lt_of_le_of_lt hm h.1⟩
    · simp only [removeIncompLoop, if_neg h] at hres ⊢
      exact ih _ _ hm hbest t hres

theorem removeIncompLoop_some_mem (tav : Track → TrackAtVertex) (seed : List Track) :
    ∀ (links : List Track) (m : ℚ) (best : Option Track) (t : Track),
    (removeIncompLoop tav seed links m best).2 = some t →
    best = some t ∨ t ∈ links := by
  intro links
  induction links with
  | nil =>
    intro m best t hres
    simp only [removeIncompLoop] at hres
    exact Or.inl hres
  | cons trk rest ih =>
    intro m best t hres
    by_cases h : m < (tav trk).vertexCompatibility ∧ trk ∈ seed
    · simp only [removeIncompLoop, if_pos h] at hres
      rcases ih _ _ t hres with hb | hrest
      · injection hb with hb
        subst hb
        exact Or.inr (by simp)
      · exact Or.inr (List.mem_cons_of_mem _ hrest)
    · simp only [removeIncompLoop, if_neg h] at hres
      rcases ih _ _ t hres with hb | hrest
      · exact Or.inl hb
      · exact Or.inr (List.mem_cons_of_mem _ hrest)

theorem removeIncompLoop_none (tav : Track → TrackAtVertex) (seed : List Track) :
    ∀ (links : List Track) (m : ℚ) (best : Option Track),
    (removeIncompLoop tav seed links m best).2 = none →
    best = none ∧ (removeIncompLoop tav seed links m best).1 = m := by
  intro links
  induction links with
  | nil =>
    intro m best hres
    simp only [removeIncompLoop] at hres ⊢
    exact ⟨hres, trivial⟩
  | cons trk rest ih =>
    intro m best hres
    by_cases h : m < (tav trk).vertexCompatibility ∧ trk ∈ seed
    · simp only [removeIncompLoop, if_pos h] at hres ⊢
      rcases ih _ _ hres with ⟨hb, -⟩
      exact absurd hb (by simp)
    · simp only [removeIncompLoop, if_neg h] at hres ⊢
      exact ih _ _ hres

theorem nearestTrackLoop_aux (dist : Track → ℚ) (full : List Track) :
    ∀ (l : List Track) (i : Nat) (best : Option (ℚ × Nat × Track)),
    full.drop i = l →
    (∀ b : ℚ × Nat × Track, best = some b →
      ∃ hb : b.2.1 < full.length,
        full.get ⟨b.2.1, hb⟩ = b.2.2 ∧ b.1 = dist b.2.2 ∧
        ∀ t2 ∈ full.take i, b.1 ≤ dist t2) →
    (best = none → full.take i = []) →
    ((∀ b : ℚ × Nat × Track, nearestTrackLoop dist l i best = some b →
      ∃ hb : b.2.1 < full.length,
        full.get ⟨b.2.1, hb⟩ = b.2.2 ∧ b.1 = dist b.2.2 ∧
        ∀ t2 ∈ full, b.1 ≤ dist t2) ∧
     (nearestTrackLoop dist l i best = none → best = none ∧ l = [])) := by
  intro l
  induction l with
  | nil =>
    intro i best hdrop hsome hnone
    have htake : full.length ≤ i := by
      have hlen := congrArg List.length hdrop
      rw [List.length_drop] at hlen
      simp only [List.length_nil] at hlen
      omega
    constructor
    · intro b hb
      simp only [nearestTrackLoop] at hb
      rcases hsome b hb with ⟨hlt, hget, hd, hmin⟩
      refine ⟨hlt, hget, hd, ?_⟩
      rw [List.take_of_length_le htake] at hmin
      exact hmin
    · intro hb
      simp only [nearestTrackLoop] at hb
      exact ⟨hb, rfl⟩
  | cons trk rest ih =>
    intro i best hdrop hsome hnone
    have hi : i < full.length := by
      have hlen := congrArg List.length hdrop
      rw [List.length_drop] at hlen
      simp only [List.length_cons] at hlen
      omega
    have hcons : full.drop i = full.get ⟨i, hi⟩ :: full.drop (i + 1) :=
      List.drop_eq_getElem_cons hi
    rw [hdrop] at hcons
    have htrk : full.get ⟨i, hi⟩ = trk := by
      injection hcons with h1 h2
      exact h1.symm
    have hdrop2 : full.drop (i + 1) = rest := by
      injection hcons with h1 h2
      exact h2.symm
    have htake2 : full.take (i + 1) = full.take i ++ [trk] := by
      rw [List.take_succ, List.getElem?_eq_getElem hi]
      have : full[i] = trk := htrk
      simp [this]
    have hmem2 : ∀ t2 ∈ full.take (i + 1), t2 ∈ full.take i ∨ t2 = trk := by
      intro t2 ht2
      rw [htake2] at ht2
      rcases List.mem_append.1 ht2 with h2 | h2
      · exact Or.inl h2
      · exact Or.inr (by simpa using h2)
    cases best with
    | none =>
      have hs2 : ∀ b2 : ℚ × Nat × Track, (some (dist trk, i, trk) :
          Option (ℚ × Nat × Track)) = some b2 →
          ∃ hb : b2.2.1 < full.length,
            full.get ⟨b2.2.1, hb⟩ = b2.2.2 ∧ b2.1 = dist b2.2.2 ∧
            ∀ t2 ∈ full.take (i + 1), b2.1 ≤ dist t2 := by
        rintro b2 hb2
        injection hb2 with hb2
        subst hb2
        refine ⟨hi, htrk, rfl, ?_⟩
        intro t2 ht2
        rcases hmem2 t2 ht2 with h2 | h2
        · rw [hnone rfl] at h2
          exact absurd h2 (by simp)
        · subst h2
          exact le_refl _
      have hrec := ih (i + 1) (some (dist trk, i, trk)) hdrop2 hs2
        (fun h => absurd h (by simp))
      constructor
      · intro b hb
        simp only [nearestTrackLoop] at hb
        exact hrec.1 b hb
      · intro hb
        simp only [nearestTrackLoop] at hb
        exact absurd (hrec.2 hb).1 (by simp)
    | some b =>
      by_cases hlt : dist trk < b.1
      · have hs2 : ∀ b2 : ℚ × Nat × Track, (some (dist trk, i, trk) :
            Option (ℚ × Nat × Track)) = some b2 →
            ∃ hb : b2.2.1 < full.length,
              full.get ⟨b2.2.1, hb⟩ = b2.2.2 ∧ b2.1 = dist b2.2.2 ∧
              ∀ t2 ∈ full.take (i + 1), b2.1 ≤ dist t2 := by
          rintro b2 hb2
          injection hb2 with hb2
          subst hb2
          refine ⟨hi, htrk, rfl, ?_⟩
          intro t2 ht2
          rcases hmem2 t2 ht2 with h2 | h2
          · rcases hsome b rfl with ⟨-, -, -, hmin⟩
            exact le_trans hlt.le (hmin t2 h2)
          · subst h2
            exact le_refl _
        have hrec := ih (i + 1) (some (dist trk, i, trk)) hdrop2 hs2
          (fun h => absurd h (by simp))
        constructor
        · intro b2 hb2
          simp only [nearestTrackLoop, if_pos hlt] at hb2
          exact hrec.1 b2 hb2
        · intro hb2
          simp only [nearestTrackLoop, if_pos hlt] at hb2
          exact absurd (hrec.2 hb2).1 (by simp)
      · have hs2 : ∀ b2 : ℚ × Nat × Track, (some b :
            Option (ℚ × Nat × Track)) = some b2 →
            ∃ hb : b2.2.1 < full.length,
              full.get ⟨b2.2.1, hb⟩ = b2.2.2 ∧ b2.1 = dist b2.2.2 ∧
              ∀ t2 ∈ full.take (i + 1), b2.1 ≤ dist t2 := by
          rintro b2 hb2
          injection hb2 with hb2
          subst hb2
          rcases hsome b rfl with ⟨hblt, hbget, hbd, hbmin⟩
          refine ⟨hblt, hbget, hbd, ?_⟩
          intro t2 ht2
          rcases hmem2 t2 ht2 with h2 | h2
          · exact hbmin t2 h2
          · subst h2
            exact not_lt.1 hlt
        have hrec := ih (i + 1) (some b) hdrop2 hs2
          (fun h => absurd h (by simp))
        constructor
        · intro b2 hb2
          simp only [nearestTrackLoop, if_neg hlt] at hb2
          exact hrec.1 b2 hb2
        · intro hb2
          simp only [nearestTrackLoop, if_neg hlt] at hb2
          exact absurd (hrec.2 hb2).1 (by simp)

theorem removeTrackIfIncompatible_spec (tav : Track → TrackAtVertex)
    (trackLinks seedTracks removedSeedTracks : List Track)
    (extractZ : Track → ℚ) (vtxZ : ℚ) :
    (removeTrackIfIncompatible tav trackLinks seedTracks removedSeedTracks
        extractZ vtxZ = none ↔ seedTracks = []) ∧
    (∀ seedTracks2 removed2,
      removeTrackIfIncompatible tav trackLinks seedTracks removedSeedTracks
          extractZ vtxZ = some (seedTracks2, removed2) →
      ((∃ trk, trk ∈ trackLinks ∧ trk ∈ seedTracks ∧
          0 < (tav trk).vertexCompatibility ∧
          (∀ trk2 ∈ trackLinks, trk2 ∈ seedTracks →
            (tav trk2).vertexCompatibility ≤ (tav trk).vertexCompatibility) ∧
          seedTracks2 = seedTracks.erase trk ∧
          removed2 = removedSeedTracks ++ [trk]) ∨
        ((∀ trk2 ∈ trackLinks, trk2 ∈ seedTracks →
            (tav trk2).vertexCompatibility ≤ 0) ∧
          ∃ j, ∃ hj : j < seedTracks.length,
            (∀ trk2 ∈ seedTracks,
              |extractZ (seedTracks.get ⟨j, hj⟩) - vtxZ| ≤
                |extractZ trk2 - vtxZ|) ∧
            seedTracks2 = seedTracks.eraseIdx j ∧
            removed2 = removedSeedTracks ++ [seedTracks.get ⟨j, hj⟩]))) := by
  cases hr : (removeIncompLoop tav seedTracks trackLinks 0 none).2 with
  | some trk =>
    have hbest : ∀ t0 : Track, (none : Option Track) = some t0 →
        t0 ∈ seedTracks ∧ (tav t0).vertexCompatibility = 0 ∧ (0 : ℚ) < 0 :=
      fun t0 h => absurd h (by simp)
    rcases removeIncompLoop_some tav seedTracks trackLinks 0 none (le_refl 0)
      hbest trk hr with ⟨hmem, hcomp, hpos⟩
    have hlinks : trk ∈ trackLinks := by
      rcases removeIncompLoop_some_mem tav seedTracks trackLinks 0 none trk hr with
        h | h
      · exact absurd h (by simp)
      · exact h
    constructor
    · constructor
      · intro h
        simp only [removeTrackIfIncompatible, hr] at h
        exact absurd h (by simp)
      · intro h
        rw [h] at hmem
        exact absurd hmem (by simp)
    · intro seedTracks2 removed2 h
      simp only [removeTrackIfIncompatible, hr] at h
      injection h with h
      rw [Prod.mk.injEq] at h
      refine Or.inl ⟨trk, hlinks, hmem, ?_, ?_, h.1.symm, h.2.symm⟩
      · rw [hcomp]
        exact hpos
      · intro trk2 hl2 hs2
        rw [hcomp]
        exact removeIncompLoop_fst_bound tav seedTracks trackLinks 0 none trk2 hl2 hs2
  | none =>
    have haux := nearestTrackLoop_aux (fun t => |extractZ t - vtxZ|) seedTracks
      seedTracks 0 none (List.drop_zero seedTracks) (fun b h => absurd h (by simp))
      (fun _ => List.take_zero seedTracks)
    have hzero := removeIncompLoop_none tav seedTracks trackLinks 0 none hr
    have hnopos : ∀ trk2 ∈ trackLinks, trk2 ∈ seedTracks →
        (tav trk2).vertexCompatibility ≤ 0 := by
      intro trk2 hl2 hs2
      have := removeIncompLoop_fst_bound tav seedTracks trackLinks 0 none trk2 hl2 hs2
      rw [hzero.2] at this
      exact this
    cases hn : nearestTrackLoop (fun t => |extractZ t - vtxZ|) seedTracks 0 none with
    | some b =>
      rcases haux.1 b hn with ⟨hb, hget, hd, hmin⟩
      have hd2 : b.1 = |extractZ b.2.2 - vtxZ| := hd
      have hmin2 : ∀ t2 ∈ seedTracks, b.1 ≤ |extractZ t2 - vtxZ| := hmin
      constructor
      · constructor
        · intro h
          simp only [removeTrackIfIncompatible, hr, hn] at h
          exact absurd h (by simp)
        · intro h
          rw [h] at hb
          exact absurd hb (by simp)
      · intro seedTracks2 removed2 h
        simp only [removeTrackIfIncompatible, hr, hn] at h
        injection h with h
        rw [Prod.mk.injEq] at h
        refine Or.inr ⟨hnopos, b.2.1, hb, ?_, h.1.symm, ?_⟩
        · intro trk2 ht2
          rw [hget, ← hd2]
          exact hmin2 trk2 ht2
        · rw [← h.2, hget]
    | none =>
      have hempty : seedTracks = [] := (haux.2 hn).2
      constructor
      · constructor
        · intro _
          exact hempty
        · intro _
          simp only [removeTrackIfIncompatible, hr, hn]
      · intro seedTracks2 removed2 h
        simp only [removeTrackIfIncompatible, hr, hn] at h
        exact absurd h (by simp)

/-- Claim C6: removeTrackIfIncompatible removes from seedTracks, and records
    in removedSeedTracks, the linked track of maximal vertexCompatibility
    still present in seedTracks, requiring a strictly positive compatibility;
    when no such track exists it removes the seed track nearest in z to the
    candidate; and it reports failure exactly when seedTracks is empty. -/
theorem C6_removeTrackIfIncompatible_spec (tav : Track → TrackAtVertex)
    (trackLinks seedTracks removedSeedTracks : List Track)
    (extractZ : Track → ℚ) (vtxZ : ℚ) :
    (removeTrackIfIncompatible tav trackLinks seedTracks removedSeedTracks
        extractZ vtxZ = none ↔ seedTracks = []) ∧
    (∀ seedTracks2 removed2,
      removeTrackIfIncompatible tav trackLinks seedTracks removedSeedTracks
          extractZ vtxZ = some (seedTracks2, removed2) →
      ((∃ trk, trk ∈ trackLinks ∧ trk ∈ seedTracks ∧
          0 < (tav trk).vertexCompatibility ∧
          (∀ trk2 ∈ trackLinks, trk2 ∈ seedTracks →
            (tav trk2).vertexCompatibility ≤ (tav trk).vertexCompatibility) ∧
          seedTracks2 = seedTracks.erase trk ∧
          removed2 = removedSeedTracks ++ [trk]) ∨
        ((∀ trk2 ∈ trackLinks, trk2 ∈ seedTracks →
            (tav trk2).vertexCompatibility ≤ 0) ∧
          ∃ j, ∃ hj : j < seedTracks.length,
            (∀ trk2 ∈ seedTracks,
              |extractZ (seedTracks.get ⟨j, hj⟩) - vtxZ| ≤
                |extractZ trk2 - vtxZ|) ∧
            seedTracks2 = seedTracks.eraseIdx j ∧
            removed2 = removedSeedTracks ++ [seedTracks.get ⟨j, hj⟩]))) :=
  removeTrackIfIncompatible_spec tav trackLinks seedTracks removedSeedTracks
    extractZ vtxZ

/-- Claim C6, witness: with an empty seedTracks list no track can be removed
    and the function reports failure. -/
theorem C6_removeTrackIfIncompatible_witness :
    removeTrackIfIncompatible tavCx [0, 1] [] [] (fun _ => 0) 0 = none :=
  (C6_removeTrackIfIncompatible_spec tavCx [0, 1] [] [] (fun _ => 0) 0).1.mpr rfl

/-- Claim C8: find with an empty input track list fails immediately with
    EmptyInput; the finder loop is never entered. -/
theorem C8_find_empty_input (cfg : Config) (opts : VertexingOptions)
    (collab : Collaborators) :
    find cfg opts collab [] = Except.error VertexingError.EmptyInput := rfl

/-- Claim C7: whenever the seed returned for the current iteration has its z
    coordinate exactly equal to the z of the original constraint of the
    vertexing options, the loop breaks at once: the candidate is discarded
    before preparation and fit, and the previously accepted vertices are
    returned unchanged. -/
theorem C7_seed_at_constraint_breaks (cfg : Config) (opts : VertexingOptions)
    (collab : Collaborators) (allTracks : List Track) (fuel iter : Nat)
    (st : LoopState) (sd : PosCov)
    (hne : st.seedTracks ≠ [])
    (hseed : collab.seed iter st.seedTracks st.removedSeedTracks = Except.ok sd)
    (hz : sd.pos eZ = opts.constraint.pos eZ) :
    findLoop cfg opts collab allTracks (fuel + 1) iter st = Except.ok st.accepted := by
  have hempty : st.seedTracks.isEmpty = false := by
    cases hse : st.seedTracks.isEmpty
    · rfl
    · exact absurd (List.isEmpty_iff.1 hse) hne
  have hguard : ((cfg.addSingleTrackVertices && !st.seedTracks.isEmpty) ||
      (!cfg.addSingleTrackVertices && !st.seedTracks.isEmpty)) = true := by
    rw [hempty]
    cases cfg.addSingleTrackVertices <;> rfl
  have hit : findIteration cfg opts collab allTracks iter st =
      StepResult.brk st.accepted := by
    simp only [findIteration, hseed]
    rw [if_pos hz]
  simp only [findLoop, hguard, if_true, hit]

def collabC7 : Collaborators :=
  ⟨fun _ _ _ => Except.ok ⟨fun _ => 0, fun _ _ => 0⟩,
   fun _ _ => Except.ok none,
   fun _ => Except.error VertexingError.NotConverged,
   fun _ => Except.ok id⟩

def optsC7 : VertexingOptions := ⟨⟨fun _ => 0, fun _ _ => 0⟩, true, fun _ => 0⟩

def stC7 : LoopState := ⟨[0], [], [], 0⟩

/-- Claim C7, witness: a seed finder that returns the constraint position
    makes the loop exit immediately with the (empty) accepted list. -/
theorem C7_seed_at_constraint_witness :
    findLoop cfgCx optsC7 collabC7 [0] 1 0 stC7 = Except.ok [] :=
  C7_seed_at_constraint_breaks cfgCx optsC7 collabC7 [0] 0 0 stC7
    ⟨fun _ => 0, fun _ _ => 0⟩ (by decide) rfl rfl

theorem removeCompatible_length_le (cfg : Config) (tav : Track → TrackAtVertex) :
    ∀ (links seed rem : List Track),
    ((removeCompatibleTracksFromSeedTracks cfg tav links seed rem).1).length ≤
      seed.length := by
  intro links
  induction links with
  | nil =>
    intro seed rem
    simp [removeCompatibleTracksFromSeedTracks]
  | cons trk rest ih =>
    intro seed rem
    by_cases hc : isCompatibleTrack cfg (tav trk) = true
    · by_cases hm : trk ∈ seed
      · simp only [removeCompatibleTracksFromSeedTracks, hc, hm, if_true]
        exact le_trans (ih _ _) (List.erase_sublist trk seed).length_le
      · simp only [removeCompatibleTracksFromSeedTracks, hc, hm, if_true, if_false]
        exact ih seed rem
    · simp only [removeCompatibleTracksFromSeedTracks, hc, if_false,
        Bool.false_eq_true]
      exact ih seed rem

theorem removeCompatible_length_lt (cfg : Config) (tav : Track → TrackAtVertex) :
    ∀ (links seed rem : List Track),
    (∃ t, t ∈ links ∧ isCompatibleTrack cfg (tav t) = true ∧ t ∈ seed) →
    ((removeCompatibleTracksFromSeedTracks cfg tav links seed rem).1).length <
      seed.length := by
  intro links
  induction links with
  | nil =>
    rintro seed rem ⟨t, ht, -⟩
    exact absurd ht (by simp)
  | cons trk rest ih =>
    rintro seed rem ⟨t, ht, hcpt, hmem⟩
    by_cases hc : isCompatibleTrack cfg (tav trk) = true
    · by_cases hm : trk ∈ seed
      · simp only [removeCompatibleTracksFromSeedTracks, hc, hm, if_true]
        have hle := removeCompatible_length_le cfg tav rest (seed.erase trk)
          (rem ++ [trk])
        have herase : (seed.erase trk).length = seed.length - 1 :=
          List.length_erase_of_mem hm
        have hpos : 0 < seed.length := List.length_pos_of_mem hm
        omega
      · rcases List.mem_cons.1 ht with rfl | hrest
        · exact absurd hmem hm
        · simp only [removeCompatibleTracksFromSeedTracks, hc, hm, if_true, if_false]
          exact ih seed rem ⟨t, hrest, hcpt, hmem⟩
    · rcases List.mem_cons.1 ht with rfl | hrest
      · exact absurd hcpt hc
      · simp only [removeCompatibleTracksFromSeedTracks, hc, if_false,
          Bool.false_eq_true]
        exact ih seed rem ⟨t, hrest, hcpt, hmem⟩

theorem countCompatible_pos_exists (cfg : Config) (tav : Track → TrackAtVertex)
    (seed links : List Track) (h : 1 ≤ countCompatible cfg tav seed links) :
    ∃ t, t ∈ links ∧ isCompatibleTrack cfg (tav t) = true ∧ t ∈ seed := by
  unfold countCompatible at h
  have hne : (links.filter fun trk =>
      isCompatibleTrack cfg (tav trk) && decide (trk ∈ seed)) ≠ [] := by
    intro he
    rw [he] at h
    simp at h
  rcases List.exists_mem_of_ne_nil _ hne with ⟨t, ht⟩
  rcases List.mem_filter.1 ht with ⟨hl, hp⟩
  rw [Bool.and_eq_true, decide_eq_true_eq] at hp
  exact ⟨t, hl, hp.1, hp.2⟩

theorem removeTrackIfIncompatible_some_length (tav : Track → TrackAtVertex)
    (links seed rem : List Track) (extractZ : Track → ℚ) (vtxZ : ℚ)
    (pr : List Track × List Track)
    (h : removeTrackIfIncompatible tav links seed rem extractZ vtxZ = some pr) :
    pr.1.length < seed.length := by
  have h2 : removeTrackIfIncompatible tav links seed rem extractZ vtxZ =
      some (pr.1, pr.2) := by
    rw [h]
  rcases (removeTrackIfIncompatible_spec tav links seed rem extractZ vtxZ).2
    pr.1 pr.2 h2 with
      ⟨trk, -, hmem, -, -, hseed2, -⟩ | ⟨-, j, hj, -, hseed2, -⟩
  · rw [hseed2, List.length_erase_of_mem hmem]
    have := List.length_pos_of_mem hmem
    omega
  · rw [hseed2]
    rw [List.length_eraseIdx_of_lt hj]
    omega

theorem checkVertex_count_eq (cfg : Config) (tav : Track → TrackAtVertex)
    (seed links : List Track) (useC : Bool) :
    (checkVertexAndCompatibleTracks cfg tav seed links useC).1 =
      if (cfg.addSingleTrackVertices && useC) = true then
        min (countCompatible cfg tav seed links) 1
      else min (countCompatible cfg tav seed links) 2 := by
  rw [checkVertexAndCompatibleTracks,
    checkVertexLoop_fst cfg tav seed useC links 0 (by omega)]
  split <;> omega

theorem findIteration_next_decreases (cfg : Config) (opts : VertexingOptions)
    (collab : Collaborators) (allTracks : List Track) (iter : Nat)
    (st st2 : LoopState)
    (h : findIteration cfg opts collab allTracks iter st = StepResult.next st2) :
    st2.seedTracks.length < st.seedTracks.length := by
  cases hseed : collab.seed iter st.seedTracks st.removedSeedTracks with
  | error e =>
    simp only [findIteration, hseed] at h
    exact absurd h (by simp)
  | ok sd =>
    simp only [findIteration, hseed] at h
    by_cases hz : sd.pos eZ = opts.constraint.pos eZ
    · rw [if_pos hz] at h
      exact absurd h (by simp)
    · rw [if_neg hz] at h
      cases hprep : collab.prep iter
          (if cfg.doRealMultiVertex then allTracks else st.seedTracks) with
      | error e =>
        rw [hprep] at h
        exact absurd h (by simp)
      | ok po =>
        rw [hprep] at h
        cases po with
        | none => exact absurd h (by simp)
        | some trackLinks =>
          cases hfit : collab.fit iter with
          | error e =>
            rw [hfit] at h
            exact absurd h (by simp)
          | ok fd =>
            rw [hfit] at h
            dsimp only at h
            by_cases hcomp : 0 < (checkVertexAndCompatibleTracks cfg fd.tav
                st.seedTracks trackLinks opts.useConstraintInFit).1
            · rw [if_pos hcomp] at h
              have hlt : ((removeCompatibleTracksFromSeedTracks cfg fd.tav
                  trackLinks st.seedTracks []).1).length < st.seedTracks.length := by
                apply removeCompatible_length_lt
                apply countCompatible_pos_exists cfg fd.tav st.seedTracks trackLinks
                rw [checkVertex_count_eq] at hcomp
                by_cases hb : (cfg.addSingleTrackVertices &&
                    opts.useConstraintInFit) = true
                · rw [if_pos hb] at hcomp
                  omega
                · rw [if_neg hb] at hcomp
                  omega
              simp only [finishIteration] at h
              split at h
              · injection h with h
                subst h
                exact hlt
              · split at h
                · exact absurd h (by simp)
                · injection h with h
                  subst h
                  exact hlt
            · rw [if_neg hcomp] at h
              cases hrm : removeTrackIfIncompatible fd.tav trackLinks
                  st.seedTracks [] opts.extractZ
                  ((⟨st.nextId, fd.cand.pos, fd.cand.cov⟩ : Vertex).pos eZ) with
              | none =>
                rw [hrm] at h
                exact absurd h (by simp)
              | some pr =>
                rw [hrm] at h
                have hlt := removeTrackIfIncompatible_some_length fd.tav trackLinks
                  st.seedTracks [] opts.extractZ _ pr hrm
                simp only [finishIteration] at h
                split at h
                · injection h with h
                  subst h
                  exact hlt
                · split at h
                  · exact absurd h (by simp)
                  · injection h with h
                    subst h
                    exact hlt

theorem loopIters_le (cfg : Config) (opts : VertexingOptions)
    (collab : Collaborators) (allTracks : List Track) :
    ∀ (fuel iter : Nat) (st : LoopState),
    loopIters cfg opts collab allTracks fuel iter st ≤ st.seedTracks.length := by
  intro fuel
  induction fuel with
  | zero =>
    intro iter st
    simp [loopIters]
  | succ fuel ih =>
    intro iter st
    by_cases hguard : ((cfg.addSingleTrackVertices && !st.seedTracks.isEmpty) ||
        (!cfg.addSingleTrackVertices && !st.seedTracks.isEmpty)) = true
    · simp only [loopIters, hguard, if_true]
      cases hstep : findIteration cfg opts collab allTracks iter st with
      | err e =>
        simp only [hstep]
        exact Nat.zero_le _
      | brk out =>
        simp only [hstep]
        exact Nat.zero_le _
      | next st2 =>
        simp only [hstep]
        have h1 := ih (iter + 1) st2
        have h2 := findIteration_next_decreases cfg opts collab allTracks iter
          st st2 hstep
        omega
    · simp only [loopIters]
      rw [if_neg hguard]
      exact Nat.zero_le _

/-- Claim C10: every loop body execution that hands the driver a next state
    strictly shrinks seedTracks (when compatible tracks were counted, they are
    still present and get erased; otherwise exactly one track is removed or
    the loop breaks), so the loop completes at most seedTracks-many, and from
    the initial state at most allTracks-many, non-breaking iterations,
    regardless of maxIterations. -/
theorem C10_seedTracks_decrease (cfg : Config) (opts : VertexingOptions)
    (collab : Collaborators) (allTracks : List Track) :
    (∀ (iter : Nat) (st st2 : LoopState),
      findIteration cfg opts collab allTracks iter st = StepResult.next st2 →
      st2.seedTracks.length < st.seedTracks.length) ∧
    (∀ (fuel iter : Nat) (st : LoopState),
      loopIters cfg opts collab allTracks fuel iter st ≤ st.seedTracks.length) ∧
    (∀ fuel : Nat,
      loopIters cfg opts collab allTracks fuel 0 ⟨allTracks, [], [], 0⟩ ≤
        allTracks.length) :=
  ⟨fun iter st st2 h =>
      findIteration_next_decreases cfg opts collab allTracks iter st st2 h,
   fun fuel iter st => loopIters_le cfg opts collab allTracks fuel iter st,
   fun fuel => loopIters_le cfg opts collab allTracks fuel 0 ⟨allTracks, [], [], 0⟩⟩

def collabW10 : Collaborators :=
  ⟨fun _ _ _ => Except.ok ⟨fun _ => 1, fun _ _ => 0⟩,
   fun _ _ => Except.ok (some [5]),
   fun _ => Except.ok ⟨tavCx, ⟨fun _ => 1, fun _ _ => 0⟩, id⟩,
   fun _ => Except.ok id⟩

def optsW10 : VertexingOptions := ⟨⟨fun _ => 0, fun _ _ => 0⟩, false, fun _ => 0⟩

def stW10 : LoopState := ⟨[5], [], [], 0⟩

/-- Claim C10, witness: a concrete iteration that counts one compatible seed
    track erases it, and the seed set shrinks from one track to none. -/
theorem C10_seedTracks_decrease_witness :
    ∃ st2, findIteration cfgCx optsW10 collabW10 [5] 0 stW10 =
        StepResult.next st2 ∧
      st2.seedTracks.length < stW10.seedTracks.length := by
  have hstep : findIteration cfgCx optsW10 collabW10 [5] 0 stW10 =
      StepResult.next ⟨[], [5], [], 1⟩ := by
    norm_num [findIteration, finishIteration, checkVertexAndCompatibleTracks,
      checkVertexLoop, isCompatibleTrack, removeCompatibleTracksFromSeedTracks,
      applyFitUpd, collabW10, optsW10, stW10, cfgCx, tavCx, eZ]
  exact ⟨⟨[], [5], [], 1⟩, hstep,
    (C10_seedTracks_decrease cfgCx optsW10 collabW10 [5]).1 0 stW10 _ hstep⟩

theorem isCompatibleTrack_cfg (cfg : Config) (m : Nat) (ta : TrackAtVertex) :
    isCompatibleTrack {cfg with maxIterations := m} ta = isCompatibleTrack cfg ta :=
  rfl

theorem checkVertexLoop_cfg (cfg : Config) (m : Nat) (tav : Track → TrackAtVertex)
    (seed : List Track) (useC : Bool) :
    ∀ (links : List Track) (n : Nat),
    checkVertexLoop {cfg with maxIterations := m} tav seed useC links n =
      checkVertexLoop cfg tav seed useC links n := by
  intro links
  induction links with
  | nil => intro n; rfl
  | cons trk rest ih =>
    intro n
    simp only [checkVertexLoop, isCompatibleTrack_cfg, ih]

theorem checkVertexAndCompatibleTracks_cfg (cfg : Config) (m : Nat)
    (tav : Track → TrackAtVertex) (seed links : List Track) (useC : Bool) :
    checkVertexAndCompatibleTracks {cfg with maxIterations := m} tav seed links useC =
      checkVertexAndCompatibleTracks cfg tav seed links useC := by
  unfold checkVertexAndCompatibleTracks
  rw [checkVertexLoop_cfg]

theorem removeCompatible_cfg (cfg : Config) (m : Nat) (tav : Track → TrackAtVertex) :
    ∀ (links seed rem : List Track),
    removeCompatibleTracksFromSeedTracks {cfg with maxIterations := m} tav
        links seed rem =
      removeCompatibleTracksFromSeedTracks cfg tav links seed rem := by
  intro links
  induction links with
  | nil => intro seed rem; rfl
  | cons trk rest ih =>
    intro seed rem
    simp only [removeCompatibleTracksFromSeedTracks, isCompatibleTrack_cfg, ih]

theorem keepNewVertex_cfg (cfg : Config) (m : Nat) (tav : Track → TrackAtVertex)
    (links : List Track) (vtx : Vertex) (vs : List Vertex) :
    keepNewVertex {cfg with maxIterations := m} tav links vtx vs =
      keepNewVertex cfg tav links vtx vs :=
  rfl

theorem finishIteration_cfg (cfg : Config) (m : Nat) (opts : VertexingOptions)
    (collab : Collaborators) (iter : Nat) (st : LoopState)
    (acc2 : List AcceptedVtx) (cand2 : Vertex) (fd : FitData)
    (trackLinks : List Track) (isGoodVertex : Bool) (s2 r2 : List Track) :
    finishIteration {cfg with maxIterations := m} opts collab iter st acc2 cand2
        fd trackLinks isGoodVertex s2 r2 =
      finishIteration cfg opts collab iter st acc2 cand2 fd trackLinks
        isGoodVertex s2 r2 :=
  rfl

theorem findIteration_cfg (cfg : Config) (m : Nat) (opts : VertexingOptions)
    (collab : Collaborators) (allTracks : List Track) (iter : Nat)
    (st : LoopState) :
    findIteration {cfg with maxIterations := m} opts collab allTracks iter st =
      findIteration cfg opts collab allTracks iter st := by
  simp only [findIteration, checkVertexAndCompatibleTracks_cfg,
    removeCompatible_cfg, finishIteration_cfg]

theorem findLoop_cfg (cfg : Config) (m : Nat) (opts : VertexingOptions)
    (collab : Collaborators) (allTracks : List Track) :
    ∀ (fuel iter : Nat) (st : LoopState),
    findLoop {cfg with maxIterations := m} opts collab allTracks fuel iter st =
      findLoop cfg opts collab allTracks fuel iter st := by
  intro fuel
  induction fuel with
  | zero => intro iter st; rfl
  | succ fuel ih =>
    intro iter st
    simp only [findLoop, findIteration_cfg, ih]

theorem applyFitUpd_length (u : AcceptedVtx → AcceptedVtx) (l : List AcceptedVtx) :
    (applyFitUpd u l).length = l.length := by
  simp [applyFitUpd]

theorem findIteration_accepted_le (cfg : Config) (opts : VertexingOptions)
    (collab : Collaborators) (allTracks : List Track) (iter : Nat)
    (st : LoopState) :
    (∀ st2, findIteration cfg opts collab allTracks iter st = StepResult.next st2 →
      st.accepted.length ≤ st2.accepted.length) ∧
    (∀ out, findIteration cfg opts collab allTracks iter st = StepResult.brk out →
      st.accepted.length ≤ out.length) := by
  cases hseed : collab.seed iter st.seedTracks st.removedSeedTracks with
  | error e =>
    constructor
    · intro st2 h
      simp only [findIteration, hseed] at h
      exact absurd h (by simp)
    · intro out h
      simp only [findIteration, hseed] at h
      exact absurd h (by simp)
  | ok sd =>
    by_cases hz : sd.pos eZ = opts.constraint.pos eZ
    · constructor
      · intro st2 h
        simp only [findIteration, hseed] at h
        rw [if_pos hz] at h
        exact absurd h (by simp)
      · intro out h
        simp only [findIteration, hseed] at h
        rw [if_pos hz] at h
        injection h with h
        rw [h]
    · have hred : ∀ r, findIteration cfg opts collab allTracks iter st = r →
          (match collab.prep iter
              (if cfg.doRealMultiVertex then allTracks else st.seedTracks) with
            | Except.error e => StepResult.err e
            | Except.ok none => StepResult.brk st.accepted
            | Except.ok (some trackLinks) =>
              match collab.fit iter with
              | Except.error e => StepResult.err e
              | Except.ok fd =>
                let cand2 : Vertex := ⟨st.nextId, fd.cand.pos, fd.cand.cov⟩
                let acc2 := applyFitUpd fd.updAcc st.accepted
                let res := checkVertexAndCompatibleTracks cfg fd.tav st.seedTracks
                  trackLinks opts.useConstraintInFit
                if 0 < res.1 then
                  let pr := removeCompatibleTracksFromSeedTracks cfg fd.tav
                    trackLinks st.seedTracks []
                  finishIteration cfg opts collab iter st acc2 cand2 fd trackLinks
                    res.2 pr.1 pr.2
                else
                  match removeTrackIfIncompatible fd.tav trackLinks st.seedTracks []
                    opts.extractZ (cand2.pos eZ) with
                  | none => StepResult.brk acc2
                  | some pr =>
                    finishIteration cfg opts collab iter st acc2 cand2 fd trackLinks
                      res.2 pr.1 pr.2) = r := by
        intro r h
        rw [← h]
        simp only [findIteration, hseed]
        rw [if_neg hz]
      constructor
      · intro st2 h
        have h2 := hred _ h
        cases hprep : collab.prep iter
            (if cfg.doRealMultiVertex then allTracks else st.seedTracks) with
        | error e =>
          rw [hprep] at h2
          exact absurd h2 (by simp)
        | ok po =>
          rw [hprep] at h2
          cases po with
          | none => exact absurd h2 (by simp)
          | some trackLinks =>
            cases hfit : collab.fit iter with
            | error e =>
              rw [hfit] at h2
              exact absurd h2 (by simp)
            | ok fd =>
              rw [hfit] at h2
              dsimp only at h2
              have hfin : ∀ s2 r2 : List Track,
                  finishIteration cfg opts collab iter st
                    (applyFitUpd fd.updAcc st.accepted)
                    ⟨st.nextId, fd.cand.pos, fd.cand.cov⟩ fd trackLinks
                    (checkVertexAndCompatibleTracks cfg fd.tav st.seedTracks
                      trackLinks opts.useConstraintInFit).2 s2 r2 =
                    StepResult.next st2 →
                  st.accepted.length ≤ st2.accepted.length := by
                intro s2 r2 hf
                simp only [finishIteration] at hf
                split at hf
                · injection hf with hf
                  subst hf
                  simp only [List.length_append, applyFitUpd_length]
                  omega
                · split at hf
                  · exact absurd hf (by simp)
                  · injection hf with hf
                    subst hf
                    simp [applyFitUpd_length]
              by_cases hcomp : 0 < (checkVertexAndCompatibleTracks cfg fd.tav
                  st.seedTracks trackLinks opts.useConstraintInFit).1
              · rw [if_pos hcomp] at h2
                exact hfin _ _ h2
              · rw [if_neg hcomp] at h2
                cases hrm : removeTrackIfIncompatible fd.tav trackLinks
                    st.seedTracks [] opts.extractZ
                    ((⟨st.nextId, fd.cand.pos, fd.cand.cov⟩ : Vertex).pos eZ) with
                | none =>
                  rw [hrm] at h2
                  exact absurd h2 (by simp)
                | some pr =>
                  rw [hrm] at h2
                  exact hfin _ _ h2
      · intro out h
        have h2 := hred _ h
        cases hprep : collab.prep iter
            (if cfg.doRealMultiVertex then allTracks else st.seedTracks) with
        | error e =>
          rw [hprep] at h2
          exact absurd h2 (by simp)
        | ok po =>
          rw [hprep] at h2
          cases po with
          | none =>
            injection h2 with h2
            rw [h2]
          | some trackLinks =>
            cases hfit : collab.fit iter with
            | error e =>
              rw [hfit] at h2
              exact absurd h2 (by simp)
            | ok fd =>
              rw [hfit] at h2
              dsimp only at h2
              have hfin : ∀ s2 r2 : List Track,
                  finishIteration cfg opts collab iter st
                    (applyFitUpd fd.updAcc st.accepted)
                    ⟨st.nextId, fd.cand.pos, fd.cand.cov⟩ fd trackLinks
                    (checkVertexAndCompatibleTracks cfg fd.tav st.seedTracks
                      trackLinks opts.useConstraintInFit).2 s2 r2 =
                    StepResult.brk out →
                  st.accepted.length ≤ out.length := by
                intro s2 r2 hf
                simp only [finishIteration] at hf
                split at hf
                · exact absurd hf (by simp)
                · split at hf
                  · exact absurd hf (by simp)
                  · exact absurd hf (by simp)
              by_cases hcomp : 0 < (checkVertexAndCompatibleTracks cfg fd.tav
                  st.seedTracks trackLinks opts.useConstraintInFit).1
              · rw [if_pos hcomp] at h2
                exact hfin _ _ h2
              · rw [if_neg hcomp] at h2
                cases hrm : removeTrackIfIncompatible fd.tav trackLinks
                    st.seedTracks [] opts.extractZ
                    ((⟨st.nextId, fd.cand.pos, fd.cand.cov⟩ : Vertex).pos eZ) with
                | none =>
                  rw [hrm] at h2
                  injection h2 with h2
                  rw [← h2, applyFitUpd_length]
                | some pr =>
                  rw [hrm] at h2
                  exact hfin _ _ h2

theorem findLoop_accepted_le (cfg : Config) (opts : VertexingOptions)
    (collab : Collaborators) (allTracks : List Track) :
    ∀ (fuel iter : Nat) (st : LoopState) (acc : List AcceptedVtx),
    findLoop cfg opts collab allTracks fuel iter st = Except.ok acc →
    st.accepted.length ≤ acc.length := by
  intro fuel
  induction fuel with
  | zero =>
    intro iter st acc h
    simp only [findLoop] at h
    injection h with h
    rw [h]
  | succ fuel ih =>
    intro iter st acc h
    by_cases hguard : ((cfg.addSingleTrackVertices && !st.seedTracks.isEmpty) ||
        (!cfg.addSingleTrackVertices && !st.seedTracks.isEmpty)) = true
    · simp only [findLoop, hguard, if_true] at h
      cases hstep : findIteration cfg opts collab allTracks iter st with
      | err e =>
        rw [hstep] at h
        exact absurd h (by simp)
      | brk out =>
        rw [hstep] at h
        injection h with h
        rw [← h]
        exact (findIteration_accepted_le cfg opts collab allTracks iter st).2
          out hstep
      | next st2 =>
        rw [hstep] at h
        exact le_trans
          ((findIteration_accepted_le cfg opts collab allTracks iter st).1
            st2 hstep)
          (ih (iter + 1) st2 acc h)
    · simp only [findLoop] at h
      rw [if_neg hguard] at h
      injection h with h
      rw [h]

theorem findLoop_fuel_mono (cfg : Config) (opts : VertexingOptions)
    (collab : Collaborators) (allTracks : List Track) :
    ∀ (fuel1 fuel2 iter : Nat) (st : LoopState) (acc2 : List AcceptedVtx),
    fuel1 ≤ fuel2 →
    findLoop cfg opts collab allTracks fuel2 iter st = Except.ok acc2 →
    ∃ acc1, findLoop cfg opts collab allTracks fuel1 iter st = Except.ok acc1 ∧
      acc1.length ≤ acc2.length := by
  intro fuel1
  induction fuel1 with
  | zero =>
    intro fuel2 iter st acc2 hle h2
    exact ⟨st.accepted, rfl,
      findLoop_accepted_le cfg opts collab allTracks fuel2 iter st acc2 h2⟩
  | succ f1 ih =>
    intro fuel2 iter st acc2 hle h2
    cases fuel2 with
    | zero => omega
    | succ f2 =>
      by_cases hguard : ((cfg.addSingleTrackVertices && !st.seedTracks.isEmpty) ||
          (!cfg.addSingleTrackVertices && !st.seedTracks.isEmpty)) = true
      · simp only [findLoop, hguard, if_true] at h2 ⊢
        cases hstep : findIteration cfg opts collab allTracks iter st with
        | err e =>
          rw [hstep] at h2
          exact absurd h2 (by simp)
        | brk out =>
          rw [hstep] at h2
          injection h2 with h2
          exact ⟨out, rfl, by rw [h2]⟩
        | next st2 =>
          rw [hstep] at h2
          exact ih f2 (iter + 1) st2 acc2 (by omega) h2
      · simp only [findLoop] at h2 ⊢
        rw [if_neg hguard] at h2 ⊢
        injection h2 with h2
        exact ⟨st.accepted, rfl, by rw [h2]⟩

def cfgC9 : Config := ⟨1, true, false, true, false, false, 10, 0, 1, 3⟩

def cfgC9b : Config := ⟨2, true, false, true, false, false, 10, 0, 1, 3⟩

def optsC9 : VertexingOptions := ⟨⟨fun _ => 0, fun _ _ => 0⟩, true, fun _ => 0⟩

def collabC9 : Collaborators :=
  ⟨fun iter _ _ =>
      if iter = 0 then Except.ok ⟨fun _ => 1, fun _ _ => 0⟩
      else Except.error VertexingError.SeedingError,
   fun _ _ => Except.ok (some [0]),
   fun _ => Except.ok ⟨tavCx, ⟨fun _ => 1, fun _ _ => 0⟩, id⟩,
   fun _ => Except.ok id⟩

/-- Claim C9, counterexample: with identical collaborator outputs whose seed
    finder fails from the second iteration on, the run with maxIterations 1
    accepts one vertex and returns it, while the run with maxIterations 2
    reaches the failing seeder and returns an error, handing the caller no
    vertices at all: reducing maxIterations increased the number of returned
    vertices from 0 to 1. -/
theorem C9_counterexample :
    numReturned (find cfgC9 optsC9 collabC9 [0, 1]) = 1 ∧
    numReturned (find cfgC9b optsC9 collabC9 [0, 1]) = 0 ∧
    ¬(numReturned (find cfgC9 optsC9 collabC9 [0, 1]) ≤
      numReturned (find cfgC9b optsC9 collabC9 [0, 1])) := by
  have h1 : numReturned (find cfgC9 optsC9 collabC9 [0, 1]) = 1 := by
    norm_num [find, findLoop, findIteration, finishIteration, numReturned,
      checkVertexAndCompatibleTracks, checkVertexLoop, isCompatibleTrack,
      removeCompatibleTracksFromSeedTracks, keepNewVertex, contamination,
      contaminationSums, isMergedVertex, applyFitUpd, getVertexOutputList,
      Except.map, collabC9, optsC9, cfgC9, tavCx, eZ]
  have h2 : numReturned (find cfgC9b optsC9 collabC9 [0, 1]) = 0 := by
    norm_num [find, findLoop, findIteration, finishIteration, numReturned,
      checkVertexAndCompatibleTracks, checkVertexLoop, isCompatibleTrack,
      removeCompatibleTracksFromSeedTracks, keepNewVertex, contamination,
      contaminationSums, isMergedVertex, applyFitUpd, getVertexOutputList,
      Except.map, collabC9, optsC9, cfgC9b, tavCx, eZ]
  refine ⟨h1, h2, ?_⟩
  rw [h1, h2]
  omega

/-- Claim C9, amended: among two configurations differing only in
    maxIterations and run with identical collaborator outputs, if the run
    with the larger maxIterations succeeds then the run with the smaller one
    succeeds as well and returns at most as many vertices. (As stated the
    claim fails when the longer run hits a collaborator error, see the
    counterexample.) -/
theorem C9_maxIterations_monotone (cfg : Config) (opts : VertexingOptions)
    (collab : Collaborators) (allTracks : List Track) (m : Nat)
    (hm : m ≤ cfg.maxIterations) (vs2 : List OutVtx)
    (h2 : find cfg opts collab allTracks = Except.ok vs2) :
    ∃ vs1, find {cfg with maxIterations := m} opts collab allTracks =
        Except.ok vs1 ∧ vs1.length ≤ vs2.length := by
  unfold find at h2 ⊢
  by_cases hempty : allTracks.isEmpty = true
  · rw [if_pos hempty] at h2
    exact absurd h2 (by simp)
  · rw [if_neg hempty] at h2
    rw [if_neg hempty]
    cases hloop : findLoop cfg opts collab allTracks cfg.maxIterations 0
        ⟨allTracks, [], [], 0⟩ with
    | error e =>
      rw [hloop] at h2
      exact absurd h2 (by simp [Except.map])
    | ok acc2 =>
      rw [hloop] at h2
      have hv : getVertexOutputList acc2 = vs2 := by
        simp only [Except.map] at h2
        injection h2 with h2
      rcases findLoop_fuel_mono cfg opts collab allTracks m cfg.maxIterations 0
        ⟨allTracks, [], [], 0⟩ acc2 hm hloop with ⟨acc1, hloop1, hlen⟩
      refine ⟨getVertexOutputList acc1, ?_, ?_⟩
      · have hproj : ({cfg with maxIterations := m} : Config).maxIterations = m :=
          rfl
        rw [hproj, findLoop_cfg, hloop1]
        rfl
      · rw [← hv]
        simp only [getVertexOutputList, List.length_map]
        exact hlen

/-- Claim C9, witness: a run that breaks at once (the seed equals the
    constraint) succeeds with zero vertices for maxIterations 2, and the
    amended theorem produces the run with maxIterations 1 returning at most
    as many. -/
theorem C9_maxIterations_monotone_witness :
    ∃ vs1, find {cfgC9b with maxIterations := 1} optsC7 collabC7 [0] =
        Except.ok vs1 ∧ vs1.length ≤ 0 := by
  have h2 : find cfgC9b optsC7 collabC7 [0] = Except.ok [] := by
    norm_num [find, findLoop, findIteration, numReturned, getVertexOutputList,
      Except.map, collabC7, optsC7, cfgC9b, eZ]
  have h := C9_maxIterations_monotone cfgC9b optsC7 collabC7 [0] 1
    (by norm_num [cfgC9b]) [] h2
  simpa using h

/-- Claim C1, witness: with three compatible seed tracks and
    addSingleTrackVertices disabled the vertex is good via the
    two-compatible-tracks criterion. -/
theorem C1_isGoodVertex_witness :
    (checkVertexAndCompatibleTracks cfgCx tavCx [0, 1, 2] [0, 1, 2] false).2 =
      true :=
  (C1_isGoodVertex_iff cfgCx tavCx [0, 1, 2] [0, 1, 2] false).mpr
    (Or.inr (by decide))
